import Mathlib

/-!
Verification of the listing ingestion & normalization pipeline of the
`analyse_marche_immobilier` repository (src/clean_data.py, src/scraper_locamoi.py,
src/constants.py), shallowly embedded in Lean 4.

Conventions of the embedding:
* pandas/Python floats are modelled as exact rationals (`ℚ`); a missing value
  (`NaN` / `None` / `pd.NA`) is `Option.none`;
* a DataFrame is a `List Listing` in row order;
* external HTTP calls are abstracted as oracle functions passed in as arguments.
-/

set_option autoImplicit false

namespace Locamoi

/-! ## Numeric helpers -/

/-- Round-half-to-even on rationals, the tie-breaking rule used by Python's
`round` and by `pandas.Series.round` (numpy). -/
def roundHalfEven (q : ℚ) : ℤ :=
  let f : ℤ := ⌊q⌋
  let r : ℚ := q - f
  if r < 1/2 then f
  else if 1/2 < r then f + 1
  else if f % 2 = 0 then f else f + 1

/-- `round(x, 1)` from `clean_data.py` line 122: rounding to one decimal place. -/
def round1 (q : ℚ) : ℚ := (roundHalfEven (q * 10) : ℚ) / 10

/-! ## Data model

One scraped listing row, with the columns produced by
`extract_listings_from_html` (scraper_locamoi.py) plus the columns added by the
cleaning script (`prix_m2`, `lat`, `lon`, all absent/`none` at the raw stage). -/

structure Listing where
  id : String
  type_bien : String
  titre : String
  ville : String
  region : String
  surface_m2 : Option ℚ
  nb_pieces : Option ℤ
  loyer_mensuel_eur : Option ℚ
  adresse : Option String
  lien : Option String
  prix_m2 : Option ℚ
  lat : Option ℚ
  lon : Option ℚ
  deriving DecidableEq, Repr

/-! ## Stage 1: exact-duplicate removal (clean_data.py lines 35-69) -/

/-- The deduplication key: `subset_cols = [titre, ville, surface_m2, nb_pieces,
loyer_mensuel_eur]` (clean_data.py lines 53-59).  pandas `drop_duplicates`
treats `NaN` as equal to `NaN`, which matches `Option` equality. -/
def dedupKey (r : Listing) : String × String × Option ℚ × Option ℤ × Option ℚ :=
  (r.titre, r.ville, r.surface_m2, r.nb_pieces, r.loyer_mensuel_eur)

/-- `df.drop_duplicates(subset=subset_cols, keep="first")`: walk the rows in
order, keeping a row iff its key has not been seen before. -/
def dropDupAux (seen : List (String × String × Option ℚ × Option ℤ × Option ℚ)) :
    List Listing → List Listing
  | [] => []
  | r :: rs =>
      if dedupKey r ∈ seen then dropDupAux seen rs
      else r :: dropDupAux (dedupKey r :: seen) rs

/-- `remove_exact_duplicates` from clean_data.py lines 35-69. -/
def remove_exact_duplicates (l : List Listing) : List Listing :=
  dropDupAux [] l

/-- Modelled from the spec: "drop records sharing identical (title, city,
surface, room_count, rent); keep first occurrence in aggregation order" — keep
each row and delete every later row carrying the same key. -/
def specKeepFirst : List Listing → List Listing
  | [] => []
  | r :: rs => r :: specKeepFirst (rs.filter (fun x => dedupKey x ≠ dedupKey r))
termination_by l => l.length
decreasing_by
  simp only [List.length_cons]
  exact Nat.lt_succ_of_le (List.length_filter_le _ _)

/-! ## Stage 2: missing-core-field filter (clean_data.py lines 73-97) -/

/-- `drop_rows_with_missing_core_fields`: keep only rows where
`loyer_mensuel_eur`, `surface_m2` and `nb_pieces` are all non-null. -/
def drop_rows_with_missing_core_fields (l : List Listing) : List Listing :=
  l.filter (fun r =>
    r.loyer_mensuel_eur.isSome && r.surface_m2.isSome && r.nb_pieces.isSome)

/-! ## Stage 3: derived price per m² (clean_data.py lines 101-127) -/

/-- The `prix_m2` value computed for one row:
`round(loyer / surface, 1)` followed by replacement of `±inf` by `NA`.
In float arithmetic the division is infinite exactly when the surface is zero
(and `NaN`, also null-like, for `0/0`), so the value is null iff either input
is null or the surface is zero. -/
def prixM2Of (rent surface : Option ℚ) : Option ℚ :=
  match rent, surface with
  | some a, some s => if s = 0 then none else some (round1 (a / s))
  | _, _ => none

/-- `add_price_per_m2_column` from clean_data.py lines 101-127.  The
`pd.to_numeric` coercions are identities here because the fields are already
numeric-or-null in the model. -/
def add_price_per_m2_column (l : List Listing) : List Listing :=
  l.map (fun r => { r with prix_m2 := prixM2Of r.loyer_mensuel_eur r.surface_m2 })

/-! ## Stage 5: extreme-value filter (clean_data.py lines 325-347) -/

/-- `df_clean["loyer_mensuel_eur"] <= 15000` for one row; a null (`NaN`)
compares false in pandas. -/
def loyerLe15000 (r : Listing) : Bool :=
  match r.loyer_mensuel_eur with
  | some a => decide (a ≤ 15000)
  | none => false

/-- `df_clean["surface_m2"] <= 1000` for one row; null compares false. -/
def surfaceLe1000 (r : Listing) : Bool :=
  match r.surface_m2 with
  | some s => decide (s ≤ 1000)
  | none => false

/-- `clean_extreme_values` from clean_data.py lines 325-347: two successive
boolean-mask filters (the `reset_index` only renumbers rows). -/
def clean_extreme_values (l : List Listing) : List Listing :=
  (l.filter loyerLe15000).filter surfaceLe1000

/-! ## City-name normalization (clean_data.py lines 26-33)

`df["ville"].str.lower().str.normalize("NFKD").str.encode("ascii",
errors="ignore").str.decode("utf-8").str.strip()`.  The Unicode lowering and
NFKD-plus-ASCII-ignore steps are modelled by explicit character tables
covering the characters occurring in this repository's gazetteer and labels;
other non-ASCII characters are dropped, as `errors="ignore"` does. -/

/-- Unicode-aware single-character lowering for the accented capitals used in
the gazetteer; ASCII behaves like `Char.toLower`. -/
def pyCharLower (c : Char) : Char :=
  if c = 'É' then 'é' else if c = 'È' then 'è' else if c = 'Ê' then 'ê'
  else if c = 'À' then 'à' else if c = 'Â' then 'â' else if c = 'Ô' then 'ô'
  else if c = 'Î' then 'î' else if c = 'Û' then 'û' else if c = 'Ç' then 'ç'
  else c.toLower

/-- `str.lower()` over the repository's character set. -/
def pyLower (s : String) : String := String.mk (s.data.map pyCharLower)

/-- NFKD decomposition followed by `encode("ascii", errors="ignore")` at the
character level: accented Latin letters fold to their base letter, `²` folds
to `2`, other non-ASCII characters are dropped. -/
def nfkdAsciiChar (c : Char) : List Char :=
  if c.toNat < 128 then [c]
  else if c = 'é' ∨ c = 'è' ∨ c = 'ê' ∨ c = 'ë' then ['e']
  else if c = 'É' ∨ c = 'È' ∨ c = 'Ê' ∨ c = 'Ë' then ['E']
  else if c = 'à' ∨ c = 'â' ∨ c = 'ä' then ['a']
  else if c = 'À' ∨ c = 'Â' then ['A']
  else if c = 'î' ∨ c = 'ï' then ['i']
  else if c = 'ô' ∨ c = 'ö' then ['o']
  else if c = 'û' ∨ c = 'ù' ∨ c = 'ü' then ['u']
  else if c = 'ç' then ['c'] else if c = 'Ç' then ['C']
  else if c = '²' then ['2']
  else []

/-- NFKD + ASCII-ignore over a whole string. -/
def nfkdAscii (s : String) : String := String.mk (s.data.flatMap nfkdAsciiChar)

/-- Python `str.strip()`: remove leading and trailing whitespace. -/
def pyStrip (s : String) : String :=
  String.mk (((s.data.dropWhile Char.isWhitespace).reverse.dropWhile
    Char.isWhitespace).reverse)

/-- The `ville` normalization applied to every row before deduplication. -/
def villeNormalize (s : String) : String := pyStrip (nfkdAscii (pyLower s))

/-- The module-level `df["ville"] = ...` assignment of clean_data.py 26-33. -/
def normalize_villes (l : List Listing) : List Listing :=
  l.map (fun r => { r with ville := villeNormalize r.ville })

/-! ## Geocoding (clean_data.py lines 142-308)

The external PositionStack call is abstracted: a single-address call either
raises inside the `try` block (transport error, `raise_for_status`, JSON
decode error) or yields the parsed `data` list of results.  A coordinate
value, when present, either converts under `float(...)` to a rational or
makes `float(...)` raise. -/

/-- A JSON coordinate payload value as seen by `float(...)`: either it
converts to a number, or the conversion raises `TypeError`/`ValueError`. -/
inductive PyNum where
  | num (q : ℚ)
  | bad
  deriving DecidableEq, Repr

/-- One element of the response's `data` list; each coordinate key may be
absent (`dict.get` returns `None`). -/
structure GeoResult where
  latitude : Option PyNum
  longitude : Option PyNum
  deriving DecidableEq, Repr

/-- Outcome of one external geocoding call, as observed inside the `try`
block of `geocode_address_positionstack`. -/
inductive GeoOutcome where
  | exn
  | ok (results : List GeoResult)
  deriving DecidableEq, Repr

/-- `float(x)` on a coordinate payload value. -/
def floatConv : PyNum → Option ℚ
  | .num q => some q
  | .bad => none

/-- `geocode_address_positionstack` from clean_data.py lines 142-210, with
the HTTP interaction abstracted into `outcome`.  A `none` address models a
`NaN` cell (`pd.isna`); an empty string is falsy (`not address`).  Matches
the source's order of operations: the latitude is converted first, and a
conversion failure returns `(None, None)` before the longitude is examined. -/
def geocode_address_positionstack (address : Option String) (outcome : GeoOutcome) :
    Option ℚ × Option ℚ :=
  match address with
  | none => (none, none)
  | some a =>
    if a = "" then (none, none)
    else
      match outcome with
      | .exn => (none, none)
      | .ok [] => (none, none)
      | .ok (first :: _) =>
          match first.latitude with
          | some v =>
              match floatConv v with
              | none => (none, none)
              | some la =>
                  match first.longitude with
                  | some w =>
                      match floatConv w with
                      | none => (none, none)
                      | some lo => (some la, some lo)
                  | none => (some la, none)
          | none =>
              match first.longitude with
              | some w =>
                  match floatConv w with
                  | none => (none, none)
                  | some lo => (none, some lo)
              | none => (none, none)

/-- `df["adresse"].fillna("").astype(str).str.strip()` for one cell. -/
def normAddr (a : Option String) : String := pyStrip (a.getD "")

/-- The set of distinct non-empty normalized addresses
(`sorted(set(a for a in normalized_addresses if a))`).  The Python code sorts
the set; the iteration order is immaterial here because every result lands in
a keyed table, so the model keeps a deduplicated list. -/
def uniqueAddrs (l : List Listing) : List String :=
  ((l.map (fun r => normAddr r.adresse)).filter (fun a => a ≠ "")).dedup

/-- The completed `addr_to_coords` table: one oracle call per entry of
`uniqueAddrs`. -/
def addrTable (g : String → Option ℚ × Option ℚ) (l : List Listing) :
    List (String × (Option ℚ × Option ℚ)) :=
  (uniqueAddrs l).map (fun a => (a, g a))

/-- Per-row coordinate assignment: empty normalized address gets nulls
directly; otherwise `addr_to_coords.get(addr_norm, (None, None))`. -/
def assignCoords (g : String → Option ℚ × Option ℚ) (l : List Listing)
    (r : Listing) : Listing :=
  let n := normAddr r.adresse
  if n = "" then { r with lat := none, lon := none }
  else
    let c := ((addrTable g l).lookup n).getD (none, none)
    { r with lat := c.1, lon := c.2 }

/-- `add_gps_coordinates_positionstack` from clean_data.py lines 213-308 with
the per-address resolution abstracted into the oracle `g`.  The thread pool
only parallelizes the independent per-address calls; the resulting table is
keyed, so the sequential model is observationally identical. -/
def add_gps_coordinates_positionstack (g : String → Option ℚ × Option ℚ)
    (l : List Listing) : List Listing :=
  l.map (assignCoords g l)

/-! ## Dropping the url column (clean_data.py lines 313-323) -/

/-- `drop_url_column`: removing the `url` column is modelled by nulling the
field. -/
def drop_url_column (l : List Listing) : List Listing :=
  l.map (fun r => { r with lien := none })

/-! ## The full module-level pipeline of clean_data.py

The script runs, in order: ville normalization (26-33), exact-duplicate
removal (71), missing-core-field filter (99), price-per-m² derivation (129),
GPS enrichment (311), url-column drop (323), extreme-value filter (349). -/

def clean_pipeline (g : String → Option ℚ × Option ℚ) (l : List Listing) :
    List Listing :=
  clean_extreme_values
    (drop_url_column
      (add_gps_coordinates_positionstack g
        (add_price_per_m2_column
          (drop_rows_with_missing_core_fields
            (remove_exact_duplicates
              (normalize_villes l))))))

/-! ## Scraper: title pattern (scraper_locamoi.py lines 37-43)

`TITLE_PATTERN = (?P<rooms>\d+)\s+chambre[s]?
(?:\s+(?P<ptype>maison|appartement|studio|chambre))?\s+de\s+
(?P<surface>[\d\.,]+)\s*m²` with `re.IGNORECASE`, used through `.search`.
The matcher below implements exactly this pattern: it scans start positions
left to right, and at each position follows the regex's greedy/backtracking
order for the two optional parts (`[s]?` and the type group).  All the other
pieces (`\d+\s+`, literal words after `\s+`, `[\d\.,]+\s*m²`) are
backtracking-free because their character classes are disjoint from what
follows. -/

/-- Python `\s` on the ASCII range. -/
def isWs (c : Char) : Bool :=
  c = ' ' || c = '\t' || c = '\n' || c = '\r' || c = '\x0b' || c = '\x0c'

/-- A successful title match: the `rooms`, `ptype` and `surface` groups. -/
structure TitleMatch where
  rooms : String
  ptype : Option String
  surface : String
  deriving DecidableEq, Repr

/-- Case-insensitive literal match (the pattern is given lowercase);
returns the remaining input. -/
def litCI : List Char → List Char → Option (List Char)
  | [], cs => some cs
  | _ :: _, [] => none
  | p :: ps, c :: cs => if c.toLower = p then litCI ps cs else none

/-- `\s+`: at least one whitespace character, consumed greedily. -/
def ws1 : List Char → Option (List Char)
  | [] => none
  | c :: cs => if isWs c then some (cs.dropWhile isWs) else none

/-- Characters of the `surface` group class `[\d\.,]`. -/
def isSurfChar (c : Char) : Bool := c.isDigit || c = '.' || c = ','

/-- The tail `\s+de\s+(?P<surface>[\d\.,]+)\s*m²` of the title pattern. -/
def matchTail (ds : List Char) (pt : Option (List Char)) (cs : List Char) :
    Option TitleMatch :=
  match ws1 cs with
  | none => none
  | some cs =>
    match litCI "de".data cs with
    | none => none
    | some cs =>
      match ws1 cs with
      | none => none
      | some cs =>
        let ss := cs.takeWhile isSurfChar
        if ss.isEmpty then none
        else
          let cs := (cs.dropWhile isSurfChar).dropWhile isWs
          match litCI "m²".data cs with
          | none => none
          | some _ => some ⟨String.mk ds, pt.map String.mk, String.mk ss⟩

/-- The regex alternation `maison|appartement|studio|chambre`, tried in
order; on failure of the continuation the next alternative is tried, as the
backtracking engine does. -/
def tryPtypeAlts (ds : List Char) : List (List Char) → List Char → Option TitleMatch
  | [], _ => none
  | w :: ws, cs =>
      match litCI w cs with
      | some cs2 =>
          match matchTail ds (some w) cs2 with
          | some r => some r
          | none => tryPtypeAlts ds ws cs
      | none => tryPtypeAlts ds ws cs

/-- The word lists of the alternation, lowercase as in the pattern. -/
def ptypeAlts : List (List Char) :=
  ["maison".data, "appartement".data, "studio".data, "chambre".data]

/-- After `chambre[s]?`: the optional group `(?:\s+(ptype))?` is greedy, so
the variant with the group is tried before the variant without it. -/
def afterChambre (ds : List Char) (cs : List Char) : Option TitleMatch :=
  let withGroup :=
    match ws1 cs with
    | some cs2 => tryPtypeAlts ds ptypeAlts cs2
    | none => none
  match withGroup with
  | some r => some r
  | none => matchTail ds none cs

/-- After the rooms digits: `\s+chambre[s]?`, with the greedy optional `s`
(consume it if present, fall back to not consuming it). -/
def afterRooms (ds : List Char) (cs : List Char) : Option TitleMatch :=
  match ws1 cs with
  | none => none
  | some cs =>
    match litCI "chambre".data cs with
    | none => none
    | some cs =>
      match cs with
      | c :: cs2 =>
          if c.toLower = 's' then
            match afterChambre ds cs2 with
            | some r => some r
            | none => afterChambre ds cs
          else afterChambre ds cs
      | [] => afterChambre ds cs

/-- Attempt a match anchored at the current position: `(?P<rooms>\d+)` then
the rest. -/
def matchAt (cs : List Char) : Option TitleMatch :=
  let ds := cs.takeWhile Char.isDigit
  if ds.isEmpty then none else afterRooms ds (cs.dropWhile Char.isDigit)

/-- `TITLE_PATTERN.search`: first matching start position, left to right. -/
def searchTitle : List Char → Option TitleMatch
  | [] => none
  | c :: cs =>
      match matchAt (c :: cs) with
      | some r => some r
      | none => searchTitle cs

/-- Search the title pattern in a string. -/
def title_search (s : String) : Option TitleMatch := searchTitle s.data

/-! ## Scraper: property-type catalog (constants.py lines 18-39) -/

/-- `PROPERTY_TYPES`: key, slug, label. -/
def PROPERTY_TYPES : List (String × String × String) :=
  [("chambre", "room", "Chambre"),
   ("maison", "house", "Maison"),
   ("appartement", "apartment", "Appartement"),
   ("studio", "studio", "Studio"),
   ("appartement_etudiant", "student-apartment", "Appartement étudiant")]

/-- `PROPERTY_TYPES[key]["label"].lower()` (the labels are ASCII-lowered;
`é` is already lowercase). -/
def labelOf (key : String) : String :=
  match PROPERTY_TYPES.find? (fun e => e.1 == key) with
  | some e => pyLower e.2.2
  | none => ""

/-- `PROPERTY_TYPES[key]["slug"]`. -/
def slugOf (key : String) : String :=
  match PROPERTY_TYPES.find? (fun e => e.1 == key) with
  | some e => e.2.1
  | none => ""

/-! ## Scraper: type-resolution rule (scraper_locamoi.py lines 166-208) -/

/-- `valid_ptypes = ("maison", "appartement", "studio", "chambre")`. -/
def valid_ptypes : List String := ["maison", "appartement", "studio", "chambre"]

/-- The accept/continue decision of `extract_listings_from_html` for one
title match, given the task's `property_type_key`, the lowered label of the
task's type, and the optional explicit `ptype` group of the match.  `none`
means the match is skipped (`continue`); `some pt` means it is accepted with
the resolved type `pt` (`pt = none` only in the broad categories, where the
record's `type_bien` is the task key anyway). -/
def resolve_ptype (property_type_key property_type_label : String)
    (ptype : Option String) : Option (Option String) :=
  let is_student := property_type_key == "appartement_etudiant"
  let is_studio_category := property_type_key == "studio"
  if is_student || is_studio_category then
    match ptype with
    | some w => if valid_ptypes.contains w then some (some w) else none
    | none => some none
  else
    match ptype with
    | some w =>
        if valid_ptypes.contains w then
          if w == property_type_label then some (some w) else none
        else none
    | none => some (some property_type_label)

/-- Acceptance of a title under a task type: the title must match the
pattern and survive the type-resolution rule. -/
def title_accepted (property_type_key : String) (title : String) : Bool :=
  match title_search title with
  | none => false
  | some m => (resolve_ptype property_type_key (labelOf property_type_key) m.ptype).isSome

/-! ## Scraper: listing ids (scraper_locamoi.py line 233) -/

/-- Decimal digit writer with explicit fuel (any fuel above the number
itself is enough, and the result is fuel-independent — see
`natDigitsAux_stable`). -/
def natDigitsAux : ℕ → ℕ → List Char
  | _, 0 => []
  | n, fuel + 1 =>
      if n < 10 then [Nat.digitChar n]
      else natDigitsAux (n / 10) fuel ++ [Nat.digitChar (n % 10)]

/-- Decimal digit list of a natural number (the digits an f-string prints). -/
def natDigits (n : ℕ) : List Char := natDigitsAux n (n + 1)

/-- Decimal string of a natural number. -/
def natStr (n : ℕ) : String := String.mk (natDigits n)

/-- `city.replace(' ', '_').lower()`. -/
def normCityForId (city : String) : String :=
  String.mk ((city.data.map (fun c => if c = ' ' then '_' else c)).map pyCharLower)

/-- `listing_id = f"{property_type_key}_{city.replace(' ', '_').lower()}_p{page}_{idx}"`. -/
def mkListingId (property_type_key city : String) (page idx : ℕ) : String :=
  property_type_key ++ "_" ++ normCityForId city ++ "_p" ++ natStr page ++ "_" ++ natStr idx

/-! ## Scraper: search URL (scraper_locamoi.py lines 103-118) -/

/-- `BASE_URL` from constants.py. -/
def BASE_URL : String := "https://locamoi.fr"

/-- The characters `urllib.parse.quote` never encodes
(letters, digits, `_.-~`). -/
def quoteSafe (c : Char) : Bool :=
  c.isAlpha || c.isDigit || c = '_' || c = '.' || c = '-' || c = '~'

/-- UTF-8 bytes of a character. -/
def utf8Bytes (c : Char) : List ℕ :=
  let n := c.toNat
  if n < 128 then [n]
  else if n < 2048 then [192 + n / 64, 128 + n % 64]
  else if n < 65536 then [224 + n / 4096, 128 + n / 64 % 64, 128 + n % 64]
  else [240 + n / 262144, 128 + n / 4096 % 64, 128 + n / 64 % 64, 128 + n % 64]

/-- Uppercase hexadecimal digit. -/
def hexDigit (n : ℕ) : Char :=
  if n < 10 then Nat.digitChar n
  else if n = 10 then 'A' else if n = 11 then 'B' else if n = 12 then 'C'
  else if n = 13 then 'D' else if n = 14 then 'E' else 'F'

/-- `%XX` percent-encoding of one byte. -/
def pctByte (b : ℕ) : List Char := ['%', hexDigit (b / 16), hexDigit (b % 16)]

/-- `urllib.parse.quote_plus` with `safe=''`, as `urlencode` applies to every
key and value: safe characters kept, space becomes `+`, everything else
percent-encoded bytewise in UTF-8. -/
def quote_plus (s : String) : String :=
  String.mk (s.data.flatMap (fun c =>
    if quoteSafe c then [c]
    else if c = ' ' then ['+']
    else (utf8Bytes c).flatMap pctByte))

/-- `urllib.parse.urlencode`: `&`-joined `key=value` pairs in dict order. -/
def urlencode : List (String × String) → String
  | [] => ""
  | [(k, v)] => quote_plus k ++ "=" ++ quote_plus v
  | (k, v) :: rest => quote_plus k ++ "=" ++ quote_plus v ++ "&" ++ urlencode rest

/-- `build_search_url` from scraper_locamoi.py lines 103-118: the `page`
parameter is added to the dict only when `page > 1`. -/
def build_search_url (city property_type_slug : String) (page : ℕ) : String :=
  let params := [("location", city), ("property_types", property_type_slug)] ++
    (if page > 1 then [("page", natStr page)] else [])
  BASE_URL ++ "/location?" ++ urlencode params

/-! ## Gazetteer slug (constants.py lines 166-186) -/

/-- One pass of `slug.replace("--", "-")`: left-to-right, non-overlapping. -/
def collapseOnce : List Char → List Char
  | '-' :: '-' :: t => '-' :: collapseOnce t
  | c :: t => c :: collapseOnce t
  | [] => []

/-- Whether `"--"` occurs in the character list. -/
def hasDoubleDash : List Char → Bool
  | '-' :: '-' :: _ => true
  | _ :: t => hasDoubleDash t
  | [] => false

/-- The `while "--" in slug` loop, with fuel bounded by the string length
(each pass of the loop shortens the string). -/
def collapseDashes (fuel : ℕ) (cs : List Char) : List Char :=
  match fuel with
  | 0 => cs
  | f + 1 => if hasDoubleDash cs then collapseDashes f (collapseOnce cs) else cs

/-- `slugify_city` from constants.py lines 166-186: NFKD + ASCII-ignore,
lowercase, removal of `'`, `’` and `,`, spaces to hyphens (the removals and
the space replacement touch disjoint characters, so they are expressed as one
filter and one map), then the `while "--" in slug` collapse loop. -/
def slugify_city (city_name : String) : String :=
  let ascii_str := nfkdAscii city_name
  let cs := (pyLower ascii_str).data
  let cs := cs.filter (fun c => c ≠ '\'' && c ≠ '’' && c ≠ ',')
  let cs := cs.map (fun c => if c = ' ' then '-' else c)
  String.mk (collapseDashes cs.length cs)

/-! ## Pagination loop (scraper_locamoi.py lines 257-305)

`fetch_page_html` and `extract_listings_from_html` are abstracted into the
parameters `fetch` (returning `none` on any non-200 status or transport
error) and `extract`; the loop body checks `if not html` — which is true both
for `None` and for an empty body — and stops on empty extraction, otherwise
accumulates and advances to the next page. -/

/-- The `for page in range(1, max_pages + 1)` loop with early `break`s,
written with the remaining-page count as fuel. -/
def scrapeFrom {α : Type} (fetch : ℕ → Option String) (extract : String → ℕ → List α) :
    ℕ → ℕ → List α
  | _, 0 => []
  | page, fuel + 1 =>
      match fetch page with
      | none => []
      | some h =>
          if h = "" then []
          else
            let ls := extract h page
            if ls.isEmpty then []
            else ls ++ scrapeFrom fetch extract (page + 1) fuel

/-- Default `max_pages` of `scrape_city_property_type`. -/
def defaultMaxPages : ℕ := 50

/-- `scrape_city_property_type` from scraper_locamoi.py lines 257-305, for a
fixed task: pages start at 1. -/
def scrape_city_property_type {α : Type} (fetch : ℕ → Option String)
    (extract : String → ℕ → List α) (max_pages : ℕ) : List α :=
  scrapeFrom fetch extract 1 max_pages

/-- The candidates contributed by one page (empty if the fetch failed). -/
def pageListings {α : Type} (fetch : ℕ → Option String)
    (extract : String → ℕ → List α) (p : ℕ) : List α :=
  match fetch p with
  | none => []
  | some h => if h = "" then [] else extract h p

/-- Concatenation, in page order, of the candidates of `k` consecutive pages
starting at `start`. -/
def pagesConcat {α : Type} (fetch : ℕ → Option String)
    (extract : String → ℕ → List α) (start k : ℕ) : List α :=
  (List.range' start k).flatMap (pageListings fetch extract)

/-- A page that lets the loop continue: fetched, non-empty body, non-empty
extraction. -/
def pageOk {α : Type} (fetch : ℕ → Option String)
    (extract : String → ℕ → List α) (p : ℕ) : Prop :=
  ∃ h, fetch p = some h ∧ h ≠ "" ∧ extract h p ≠ []

/-- A fetch failure in the sense of the loop's `if not html` test. -/
def fetchFailed (fetch : ℕ → Option String) (p : ℕ) : Prop :=
  fetch p = none ∨ fetch p = some ""

/-- A successful fetch whose extraction yields zero candidates. -/
def extractEmpty {α : Type} (fetch : ℕ → Option String)
    (extract : String → ℕ → List α) (p : ℕ) : Prop :=
  ∃ h, fetch p = some h ∧ h ≠ "" ∧ extract h p = []

/-! ## Concrete rows and oracles used in boundary and witness statements -/

/-- A sample row with the given rent, surface, room count and address; the
remaining columns are fixed innocuous values. -/
def mkRow (rent surface : Option ℚ) (rooms : Option ℤ) (addr : Option String) :
    Listing :=
  { id := "chambre_paris_p1_1", type_bien := "chambre", titre := "1 chambre de 20m²",
    ville := "paris", region := "Ile-de-France", surface_m2 := surface,
    nb_pieces := rooms, loyer_mensuel_eur := rent, adresse := addr,
    lien := none, prix_m2 := none, lat := none, lon := none }

/-- An oracle for which every geocoding call is unresolved. -/
def gNone : String → Option ℚ × Option ℚ := fun _ => (none, none)

/-- A row with surface 0 that enters the cleaning pipeline. -/
def rowSurfaceZero : Listing := mkRow (some 500) (some 0) (some 1) none

/-- A row with a valid surface used in witness statements. -/
def rowGood : Listing := mkRow (some 500) (some 50) (some 2) none

/-- A row carrying a shared address, for the 50-records-one-call instance. -/
def rowShared : Listing :=
  mkRow (some 800) (some 30) (some 2) (some "10 Rue de la Paix, 75002 Paris")

/-- A two-good-pages-then-failure fetch oracle for pagination witnesses. -/
def fetchTwoPages : ℕ → Option String := fun p => if p ≤ 2 then some "page" else none

/-- An extractor yielding one candidate (the page number) per page. -/
def extractPageNum : String → ℕ → List ℕ := fun _ p => [p]

/-! # Theorems -/

/-! ## Extreme-value filter lemmas -/

theorem mem_clean_extreme {l : List Listing} {r : Listing} :
    r ∈ clean_extreme_values l ↔
      r ∈ l ∧ loyerLe15000 r = true ∧ surfaceLe1000 r = true := by
  simp only [clean_extreme_values, List.mem_filter]
  tauto

theorem loyerLe_iff {r : Listing} {a : ℚ} (ha : r.loyer_mensuel_eur = some a) :
    loyerLe15000 r = true ↔ a ≤ 15000 := by
  simp [loyerLe15000, ha]

theorem surfaceLe_iff {r : Listing} {s : ℚ} (hs : r.surface_m2 = some s) :
    surfaceLe1000 r = true ↔ s ≤ 1000 := by
  simp [surfaceLe1000, hs]

theorem loyerLe_isSome {r : Listing} (h : loyerLe15000 r = true) :
    r.loyer_mensuel_eur.isSome = true := by
  unfold loyerLe15000 at h
  cases hr : r.loyer_mensuel_eur with
  | none => rw [hr] at h; cases h
  | some a => simp [hr]

theorem surfaceLe_isSome {r : Listing} (h : surfaceLe1000 r = true) :
    r.surface_m2.isSome = true := by
  unfold surfaceLe1000 at h
  cases hr : r.surface_m2 with
  | none => rw [hr] at h; cases h
  | some s => simp [hr]

/-- C3: the extreme-value filter drops exactly the records with
rent > 15000 or surface > 1000, with inclusive bounds: a record with
rent = 15000 (resp. surface = 1000) is kept, one with rent = 15000.01
(resp. surface = 1000.01) is dropped. -/
theorem claim_C3_extreme_filter_inclusive_bounds :
    (∀ (l : List Listing) (r : Listing) (a s : ℚ),
        r.loyer_mensuel_eur = some a → r.surface_m2 = some s →
        (r ∈ clean_extreme_values l ↔ r ∈ l ∧ ¬(a > 15000 ∨ s > 1000))) ∧
    clean_extreme_values
      [mkRow (some 15000) (some 20) (some 1) none,
       mkRow (some (1500001/100)) (some 20) (some 1) none,
       mkRow (some 900) (some 1000) (some 1) none,
       mkRow (some 900) (some (100001/100)) (some 1) none] =
      [mkRow (some 15000) (some 20) (some 1) none,
       mkRow (some 900) (some 1000) (some 1) none] := by
  constructor
  · intro l r a s ha hs
    rw [mem_clean_extreme, loyerLe_iff ha, surfaceLe_iff hs]
    constructor
    · rintro ⟨hm, h1, h2⟩
      exact ⟨hm, by push_neg; exact ⟨h1, h2⟩⟩
    · rintro ⟨hm, h⟩
      push_neg at h
      exact ⟨hm, h.1, h.2⟩
  · norm_num [clean_extreme_values, List.filter_cons, List.filter_nil,
      loyerLe15000, surfaceLe1000, mkRow]

/-- Witness for C3 at rent 15000, surface 20 in a one-row dataset. -/
theorem claim_C3_extreme_filter_inclusive_bounds_witness :
    mkRow (some 15000) (some 20) (some 1) none ∈
        clean_extreme_values [mkRow (some 15000) (some 20) (some 1) none] ↔
      mkRow (some 15000) (some 20) (some 1) none ∈
          [mkRow (some 15000) (some 20) (some 1) none] ∧
        ¬((15000 : ℚ) > 15000 ∨ (20 : ℚ) > 1000) :=
  claim_C3_extreme_filter_inclusive_bounds.1 _ _ 15000 20 rfl rfl

/-- C10: applied to an arbitrary dataset, the extreme-value filter also
drops every record whose rent or surface is null, so all surviving records
have non-null rent and surface; concretely, rows with a null rent or a null
surface are removed even though they are not over-threshold. -/
theorem claim_C10_extreme_filter_drops_nulls :
    (∀ (l : List Listing) (r : Listing), r ∈ clean_extreme_values l →
        r.loyer_mensuel_eur.isSome = true ∧ r.surface_m2.isSome = true) ∧
    clean_extreme_values
      [mkRow none (some 50) (some 1) none,
       mkRow (some 800) none (some 1) none,
       mkRow (some 800) (some 50) (some 1) none] =
      [mkRow (some 800) (some 50) (some 1) none] := by
  constructor
  · intro l r h
    rw [mem_clean_extreme] at h
    exact ⟨loyerLe_isSome h.2.1, surfaceLe_isSome h.2.2⟩
  · decide

/-- Witness for C10 on a concrete surviving record. -/
theorem claim_C10_extreme_filter_drops_nulls_witness :
    (mkRow (some 800) (some 50) (some 1) none).loyer_mensuel_eur.isSome = true ∧
      (mkRow (some 800) (some 50) (some 1) none).surface_m2.isSome = true :=
  claim_C10_extreme_filter_drops_nulls.1
    [mkRow (some 800) (some 50) (some 1) none] _ (by decide)

/-! ## Exact-duplicate removal lemmas -/

theorem specKeepFirst_nil : specKeepFirst [] = [] := by
  rw [specKeepFirst.eq_def]

theorem specKeepFirst_cons (r : Listing) (rs : List Listing) :
    specKeepFirst (r :: rs) =
      r :: specKeepFirst (rs.filter (fun x => decide (dedupKey x ≠ dedupKey r))) := by
  rw [specKeepFirst.eq_def]

theorem dropDupAux_eq_spec (l : List Listing) :
    ∀ seen, dropDupAux seen l =
      specKeepFirst (l.filter (fun r => decide (dedupKey r ∉ seen))) := by
  induction l with
  | nil => intro seen; rw [List.filter_nil, specKeepFirst_nil, dropDupAux]
  | cons r rs ih =>
    intro seen
    by_cases h : dedupKey r ∈ seen
    · rw [dropDupAux, if_pos h, List.filter_cons,
        if_neg (by simp [h] : ¬(decide (dedupKey r ∉ seen) = true))]
      exact ih seen
    · rw [dropDupAux, if_neg h, List.filter_cons,
        if_pos (by simp [h] : decide (dedupKey r ∉ seen) = true),
        specKeepFirst_cons, ih (dedupKey r :: seen), List.filter_filter]
      congr 2
      apply List.filter_congr
      intro x _
      simp [List.mem_cons, not_or, Bool.and_comm]

theorem remove_exact_duplicates_eq_spec (l : List Listing) :
    remove_exact_duplicates l = specKeepFirst l := by
  rw [remove_exact_duplicates, dropDupAux_eq_spec]
  congr 1
  rw [List.filter_eq_self]
  intro a _
  simp

theorem specKeepFirst_filter (q : Listing → Bool)
    (hq : ∀ x y, dedupKey x = dedupKey y → q x = q y) :
    ∀ (n : ℕ) (l : List Listing), l.length ≤ n →
      (specKeepFirst l).filter q = specKeepFirst (l.filter q) := by
  intro n
  induction n with
  | zero =>
    intro l hl
    rw [List.eq_nil_of_length_eq_zero (Nat.le_zero.mp hl)]
    simp [specKeepFirst_nil]
  | succ n ih =>
    intro l hl
    match l with
    | [] => simp [specKeepFirst_nil]
    | r :: rs =>
      have hlen : ∀ (p : Listing → Bool), (rs.filter p).length ≤ n := by
        intro p
        calc (rs.filter p).length ≤ rs.length := List.length_filter_le p rs
        _ ≤ n := by simpa using hl
      rw [specKeepFirst_cons, List.filter_cons]
      by_cases hqr : q r = true
      · rw [if_pos hqr, List.filter_cons, if_pos hqr, specKeepFirst_cons]
        rw [ih _ (hlen _), List.filter_filter, List.filter_filter]
        have hcomm : rs.filter (fun a => q a && decide (dedupKey a ≠ dedupKey r)) =
            rs.filter (fun a => decide (dedupKey a ≠ dedupKey r) && q a) :=
          List.filter_congr (fun x _ => Bool.and_comm _ _)
        rw [hcomm]
      · rw [if_neg hqr, List.filter_cons, if_neg hqr]
        rw [ih _ (hlen _), List.filter_filter]
        have hdrop : rs.filter (fun a => q a && decide (dedupKey a ≠ dedupKey r)) =
            rs.filter q := by
          apply List.filter_congr
          intro x _
          by_cases hx : dedupKey x = dedupKey r
          · have : q x = q r := hq x r hx
            simp [this, Bool.eq_false_iff.mpr hqr]
          · simp [hx]
        rw [hdrop]

theorem specKeepFirst_idem :
    ∀ (n : ℕ) (l : List Listing), l.length ≤ n →
      specKeepFirst (specKeepFirst l) = specKeepFirst l := by
  intro n
  induction n with
  | zero =>
    intro l hl
    rw [List.eq_nil_of_length_eq_zero (Nat.le_zero.mp hl), specKeepFirst_nil,
      specKeepFirst_nil]
  | succ n ih =>
    intro l hl
    match l with
    | [] => rw [specKeepFirst_nil, specKeepFirst_nil]
    | r :: rs =>
      have hq : ∀ x y, dedupKey x = dedupKey y →
          decide (dedupKey x ≠ dedupKey r) = decide (dedupKey y ≠ dedupKey r) := by
        intro x y hxy
        simp [hxy]
      have hlen : (rs.filter (fun x => decide (dedupKey x ≠ dedupKey r))).length ≤ n := by
        calc _ ≤ rs.length := List.length_filter_le _ rs
        _ ≤ n := by simpa using hl
      rw [specKeepFirst_cons, specKeepFirst_cons]
      congr 1
      rw [specKeepFirst_filter _ hq
        (rs.filter (fun x => decide (dedupKey x ≠ dedupKey r))).length _ (le_refl _)]
      have hself : (rs.filter (fun x => decide (dedupKey x ≠ dedupKey r))).filter
          (fun x => decide (dedupKey x ≠ dedupKey r)) =
          rs.filter (fun x => decide (dedupKey x ≠ dedupKey r)) := by
        rw [List.filter_eq_self]
        intro a ha
        exact (List.mem_filter.mp ha).2
      rw [hself]
      exact ih _ hlen

/-- C4: exact-duplicate removal implements keep-the-first-occurrence
deduplication on the key (title, city, surface, room_count, rent): it equals
the specification function that keeps each row and deletes every later row
with the same key, and it is idempotent. -/
theorem claim_C4_dedup_keep_first_and_idempotent :
    (∀ l : List Listing, remove_exact_duplicates l = specKeepFirst l) ∧
    (∀ l : List Listing,
        remove_exact_duplicates (remove_exact_duplicates l) =
          remove_exact_duplicates l) := by
  refine ⟨remove_exact_duplicates_eq_spec, fun l => ?_⟩
  rw [remove_exact_duplicates_eq_spec, remove_exact_duplicates_eq_spec]
  exact specKeepFirst_idem l.length l (le_refl _)

/-! ## Pipeline field-preservation lemmas -/

theorem assignCoords_fields (g : String → Option ℚ × Option ℚ) (L : List Listing)
    (x : Listing) :
    (assignCoords g L x).loyer_mensuel_eur = x.loyer_mensuel_eur ∧
    (assignCoords g L x).surface_m2 = x.surface_m2 ∧
    (assignCoords g L x).prix_m2 = x.prix_m2 := by
  unfold assignCoords
  by_cases h : normAddr x.adresse = ""
  · simp [h]
  · simp [h]

theorem clean_pipeline_price (g : String → Option ℚ × Option ℚ) (l : List Listing)
    (r : Listing) (h : r ∈ clean_pipeline g l) :
    ∃ a s, r.loyer_mensuel_eur = some a ∧ r.surface_m2 = some s ∧
      (s ≠ 0 → r.prix_m2 = some (round1 (a / s))) ∧
      (s = 0 → r.prix_m2 = none) := by
  unfold clean_pipeline at h
  obtain ⟨hmem, hloyer, hsurf⟩ := mem_clean_extreme.mp h
  unfold drop_url_column at hmem
  obtain ⟨r1, hr1, hr1eq⟩ := List.mem_map.mp hmem
  unfold add_gps_coordinates_positionstack at hr1
  obtain ⟨r2, hr2, hr2eq⟩ := List.mem_map.mp hr1
  unfold add_price_per_m2_column at hr2
  obtain ⟨r3, _, hr3eq⟩ := List.mem_map.mp hr2
  have hfields := assignCoords_fields g
    (add_price_per_m2_column (drop_rows_with_missing_core_fields
      (remove_exact_duplicates (normalize_villes l)))) r2
  rw [hr2eq] at hfields
  have hl1 : r.loyer_mensuel_eur = r2.loyer_mensuel_eur := by
    rw [← hr1eq]; exact hfields.1
  have hs1 : r.surface_m2 = r2.surface_m2 := by
    rw [← hr1eq]; exact hfields.2.1
  have hp1 : r.prix_m2 = r2.prix_m2 := by
    rw [← hr1eq]; exact hfields.2.2
  have hl2 : r2.loyer_mensuel_eur = r3.loyer_mensuel_eur := by rw [← hr3eq]
  have hs2 : r2.surface_m2 = r3.surface_m2 := by rw [← hr3eq]
  have hp2 : r2.prix_m2 = prixM2Of r3.loyer_mensuel_eur r3.surface_m2 := by
    rw [← hr3eq]
  obtain ⟨a, ha⟩ := Option.isSome_iff_exists.mp (loyerLe_isSome hloyer)
  obtain ⟨s, hs⟩ := Option.isSome_iff_exists.mp (surfaceLe_isSome hsurf)
  refine ⟨a, s, ha, hs, ?_, ?_⟩
  · intro hs0
    rw [hp1, hp2, ← hl2, ← hl1, ← hs2, ← hs1, ha, hs]
    simp [prixM2Of, hs0]
  · intro hs0
    rw [hp1, hp2, ← hl2, ← hl1, ← hs2, ← hs1, ha, hs]
    simp [prixM2Of, hs0]

/-- C1 (amended): every record surviving the full normalization pipeline has
non-null rent and surface; when its surface is non-zero its `prix_m2` equals
`round(rent / surface, 1)`, and when its surface is zero its `prix_m2` is
null (the infinite division is replaced by null) — but such a surface-zero
record CAN survive into the final dataset, since the missing-field stage runs
before the derivation and the extreme-value filter keeps surface 0 ≤ 1000. -/
theorem claim_C1_price_per_m2_of_survivors :
    ∀ (g : String → Option ℚ × Option ℚ) (l : List Listing) (r : Listing),
      r ∈ clean_pipeline g l →
      ∃ a s, r.loyer_mensuel_eur = some a ∧ r.surface_m2 = some s ∧
        (s ≠ 0 → r.prix_m2 = some (round1 (a / s))) ∧
        (s = 0 → r.prix_m2 = none) :=
  clean_pipeline_price

/-- Witness for C1 (amended) on a concrete surviving record with surface 0. -/
theorem claim_C1_price_per_m2_of_survivors_witness :
    ∃ a s, rowSurfaceZero.loyer_mensuel_eur = some a ∧
      rowSurfaceZero.surface_m2 = some s ∧
      (s ≠ 0 → rowSurfaceZero.prix_m2 = some (round1 (a / s))) ∧
      (s = 0 → rowSurfaceZero.prix_m2 = none) :=
  claim_C1_price_per_m2_of_survivors gNone [rowSurfaceZero] rowSurfaceZero (by decide)

/-- C1 counterexample: a record with surface = 0 (rent 500, rooms 1) does
survive the full normalization pipeline, contradicting "a record with
surface = 0 never survives into the final dataset"; its derived `prix_m2` is
null, not infinite. -/
theorem claim_C1_surface_zero_survives :
    ∃ r, r ∈ clean_pipeline gNone [rowSurfaceZero] ∧ r.surface_m2 = some 0 ∧
      r.prix_m2 = none :=
  ⟨rowSurfaceZero, by decide, by decide, by decide⟩

/-! ## Geocoding dedup lemmas -/

theorem lookup_map_self (g : String → Option ℚ × Option ℚ) :
    ∀ (u : List String) (a : String), a ∈ u →
      (u.map (fun x => (x, g x))).lookup a = some (g a) := by
  intro u
  induction u with
  | nil => intro a ha; cases ha
  | cons b bs ih =>
    intro a ha
    by_cases hab : a = b
    · simp [List.lookup, hab]
    · have : a ∈ bs := by
        cases List.mem_cons.mp ha with
        | inl h => exact absurd h hab
        | inr h => exact h
      have hb : (a == b) = false := by simp [hab]
      simp [List.lookup, hb, ih a this]

/-- C5: the geocoding resolver calls the external service at most once per
distinct stripped non-empty address (`uniqueAddrs` is exactly the list of
oracle calls and has no duplicates, each entry coming from some record);
records with null/empty address get null coordinates without any call (their
address is not in the call list since it normalizes to `""`), and every other
record's coordinates are a pure lookup of the completed table, i.e. the
oracle value at its normalized address; 50 records sharing one address yield
exactly one call. -/
theorem claim_C5_geocoder_one_call_per_address :
    (∀ (g : String → Option ℚ × Option ℚ) (l : List Listing),
      (uniqueAddrs l).Nodup ∧
      (∀ a ∈ uniqueAddrs l, a ≠ "" ∧ ∃ r ∈ l, normAddr r.adresse = a) ∧
      (∀ r ∈ l, normAddr r.adresse = "" →
          (assignCoords g l r).lat = none ∧ (assignCoords g l r).lon = none) ∧
      (∀ r ∈ l, normAddr r.adresse ≠ "" →
          (assignCoords g l r).lat = (g (normAddr r.adresse)).1 ∧
          (assignCoords g l r).lon = (g (normAddr r.adresse)).2)) ∧
    (uniqueAddrs (List.replicate 50 rowShared)).length = 1 := by
  constructor
  · intro g l
    refine ⟨List.nodup_dedup _, ?_, ?_, ?_⟩
    · intro a ha
      rw [uniqueAddrs, List.mem_dedup, List.mem_filter] at ha
      obtain ⟨hmap, hne⟩ := ha
      obtain ⟨r, hr, hra⟩ := List.mem_map.mp hmap
      exact ⟨by simpa using hne, r, hr, hra⟩
    · intro r _ h0
      simp [assignCoords, h0]
    · intro r hr hne
      have hmem : normAddr r.adresse ∈ uniqueAddrs l := by
        rw [uniqueAddrs, List.mem_dedup, List.mem_filter]
        exact ⟨List.mem_map.mpr ⟨r, hr, rfl⟩, by simpa using hne⟩
      have hlook : (addrTable g l).lookup (normAddr r.adresse) =
          some (g (normAddr r.adresse)) :=
        lookup_map_self g (uniqueAddrs l) _ hmem
      simp [assignCoords, hne, hlook]
  · decide

/-- Witness for C5 on a one-row dataset with a concrete address. -/
theorem claim_C5_geocoder_one_call_per_address_witness :
    (assignCoords gNone [rowShared] rowShared).lat =
        (gNone (normAddr rowShared.adresse)).1 ∧
      (assignCoords gNone [rowShared] rowShared).lon =
        (gNone (normAddr rowShared.adresse)).2 :=
  (claim_C5_geocoder_one_call_per_address.1 gNone [rowShared]).2.2.2
    rowShared (by decide) (by decide)

/-! ## Geocoding failure handling -/

/-- C6 counterexample: a result whose latitude is a number but whose
longitude key is absent makes `geocode_address_positionstack` return the
half-null pair `(some lat, none)` — not the unresolved pair `(none, none)`
the claim requires for every non-numeric coordinate payload. -/
theorem claim_C6_half_null_counterexample :
    geocode_address_positionstack (some "10 Rue de Rivoli, Paris")
        (.ok [{ latitude := some (.num 49), longitude := none }]) =
      (some 49, none) ∧
    (some (49 : ℚ) : Option ℚ) ≠ none := by
  exact ⟨rfl, by decide⟩

/-- C6 (amended): the single-address geocoding function is total and never
raises; a null or empty address, a raised exception (transport error,
non-success status, JSON error), an empty result list, or a present
coordinate whose `float` conversion fails all yield the unresolved pair
`(none, none)`; a pair of numeric coordinates yields both values; but a
MISSING coordinate key is passed through as a one-sided null, so a result
with one numeric and one absent coordinate yields a half-null pair. -/
theorem claim_C6_geocode_failure_handling :
    (∀ out, geocode_address_positionstack none out = (none, none)) ∧
    (∀ out, geocode_address_positionstack (some "") out = (none, none)) ∧
    (∀ s, s ≠ "" → geocode_address_positionstack (some s) .exn = (none, none)) ∧
    (∀ s, s ≠ "" → geocode_address_positionstack (some s) (.ok []) = (none, none)) ∧
    (∀ s, s ≠ "" → ∀ w rest, geocode_address_positionstack (some s)
        (.ok ({ latitude := some .bad, longitude := w } :: rest)) = (none, none)) ∧
    (∀ s, s ≠ "" → ∀ la rest, geocode_address_positionstack (some s)
        (.ok ({ latitude := some (.num la), longitude := some .bad } :: rest)) =
          (none, none)) ∧
    (∀ s, s ≠ "" → ∀ rest, geocode_address_positionstack (some s)
        (.ok ({ latitude := none, longitude := some .bad } :: rest)) =
          (none, none)) ∧
    (∀ s, s ≠ "" → ∀ la lo rest, geocode_address_positionstack (some s)
        (.ok ({ latitude := some (.num la), longitude := some (.num lo) } :: rest)) =
          (some la, some lo)) ∧
    (∀ s, s ≠ "" → ∀ la rest, geocode_address_positionstack (some s)
        (.ok ({ latitude := some (.num la), longitude := none } :: rest)) =
          (some la, none)) ∧
    (∀ s, s ≠ "" → ∀ lo rest, geocode_address_positionstack (some s)
        (.ok ({ latitude := none, longitude := some (.num lo) } :: rest)) =
          (none, some lo)) ∧
    (∀ s, s ≠ "" → ∀ rest, geocode_address_positionstack (some s)
        (.ok ({ latitude := none, longitude := none } :: rest)) = (none, none)) := by
  refine ⟨fun _ => rfl, fun _ => rfl, ?_, ?_, ?_, ?_, ?_, ?_, ?_, ?_, ?_⟩ <;>
    intro s hs <;>
    simp [geocode_address_positionstack, floatConv, hs]

/-- Witness for C6 (amended): a transport error on a concrete address is
unresolved. -/
theorem claim_C6_geocode_failure_handling_witness :
    geocode_address_positionstack (some "5 Avenue Anatole France, Paris") .exn =
      (none, none) :=
  claim_C6_geocode_failure_handling.2.2.1 "5 Avenue Anatole France, Paris" (by decide)

/-! ## Type-resolution rule -/

theorem contains_of_mem {l : List String} {a : String} (h : a ∈ l) :
    l.contains a = true := by
  simpa [List.contains, List.elem_iff] using h

theorem contains_of_not_mem {l : List String} {a : String} (h : a ∉ l) :
    l.contains a = false := by
  simpa [List.contains, List.elem_iff] using h

/-- C2: under the broad categories (keys `studio` and `appartement_etudiant`,
slugs `studio` and `student-apartment`), a match with an explicit type word is
accepted iff the word is one of the four valid type words; under the other
categories (`chambre`/`maison`/`appartement`, slugs `room`/`house`/
`apartment`) it is accepted iff the word equals the task's own lowered label;
a match with no explicit type word is always accepted, with the task's label
implicitly assigned in the non-broad categories.  Concretely,
"3 chambres maison de 73m²" is accepted under task `maison` and rejected
under task `appartement`, and "1 chambre de 78m²" (no explicit type word) is
accepted under tasks `chambre` and `studio`. -/
theorem claim_C2_type_resolution :
    (∀ key, (key = "studio" ∨ key = "appartement_etudiant") → ∀ lbl w,
        ((resolve_ptype key lbl (some w)).isSome = true ↔ w ∈ valid_ptypes)) ∧
    (∀ key lbl, ¬(key = "studio" ∨ key = "appartement_etudiant") →
        lbl ∈ valid_ptypes → ∀ w,
        ((resolve_ptype key lbl (some w)).isSome = true ↔ w = lbl)) ∧
    (∀ key lbl, (key = "studio" ∨ key = "appartement_etudiant") →
        resolve_ptype key lbl none = some none) ∧
    (∀ key lbl, ¬(key = "studio" ∨ key = "appartement_etudiant") →
        resolve_ptype key lbl none = some (some lbl)) ∧
    slugOf "maison" = "house" ∧ slugOf "appartement" = "apartment" ∧
    slugOf "chambre" = "room" ∧ slugOf "studio" = "studio" ∧
    slugOf "appartement_etudiant" = "student-apartment" ∧
    title_accepted "maison" "3 chambres maison de 73m²" = true ∧
    title_accepted "appartement" "3 chambres maison de 73m²" = false ∧
    title_accepted "chambre" "1 chambre de 78m²" = true ∧
    (title_search "1 chambre de 78m²").map TitleMatch.ptype = some none ∧
    resolve_ptype "chambre" (labelOf "chambre") none = some (some "chambre") ∧
    title_accepted "studio" "1 chambre de 78m²" = true := by
  refine ⟨?_, ?_, ?_, ?_, by decide, by decide, by decide, by decide, by decide,
    by decide, by decide, by decide, by decide, by decide, by decide⟩
  · intro key hk lbl w
    by_cases hw : w ∈ valid_ptypes
    · rcases hk with h | h <;> subst h <;>
        simp [resolve_ptype, contains_of_mem hw, hw]
    · rcases hk with h | h <;> subst h <;>
        simp [resolve_ptype, contains_of_not_mem hw, hw]
  · intro key lbl hk hl w
    push_neg at hk
    have h1 : (key == "appartement_etudiant") = false := by simp [hk.2]
    have h2 : (key == "studio") = false := by simp [hk.1]
    by_cases hw : w ∈ valid_ptypes
    · by_cases hwl : w = lbl
      · subst hwl
        simp [resolve_ptype, h1, h2, contains_of_mem hw]
        exact hw
      · simp [resolve_ptype, h1, h2, contains_of_mem hw, hwl]
    · have hwl : w ≠ lbl := fun he => hw (he ▸ hl)
      simp [resolve_ptype, h1, h2, contains_of_not_mem hw, hwl]
  · intro key lbl hk
    rcases hk with h | h <;> subst h <;> rfl
  · intro key lbl hk
    push_neg at hk
    have h1 : (key == "appartement_etudiant") = false := by simp [hk.2]
    have h2 : (key == "studio") = false := by simp [hk.1]
    simp [resolve_ptype, h1, h2]

/-- Witness for C2: the broad-category rule applied at task `studio` with
explicit word `maison`. -/
theorem claim_C2_type_resolution_witness :
    (resolve_ptype "studio" "studio" (some "maison")).isSome = true ↔
      "maison" ∈ valid_ptypes :=
  claim_C2_type_resolution.1 "studio" (Or.inl rfl) "studio" "maison"

/-! ## Pagination loop -/

theorem scrapeFrom_spec {α : Type} (fetch : ℕ → Option String)
    (extract : String → ℕ → List α) :
    ∀ (fuel page : ℕ), ∃ k, k ≤ fuel ∧
      scrapeFrom fetch extract page fuel = pagesConcat fetch extract page k ∧
      (∀ p, page ≤ p → p < page + k → pageOk fetch extract p) ∧
      (k = fuel ∨ fetchFailed fetch (page + k) ∨
        extractEmpty fetch extract (page + k)) := by
  intro fuel
  induction fuel with
  | zero =>
    intro page
    exact ⟨0, le_refl 0, rfl, fun p h1 h2 => absurd h2 (by omega), Or.inl rfl⟩
  | succ fuel ih =>
    intro page
    cases hf : fetch page with
    | none =>
      refine ⟨0, Nat.zero_le _, ?_, fun p h1 h2 => absurd h2 (by omega),
        Or.inr (Or.inl ?_)⟩
      · simp [scrapeFrom, hf, pagesConcat]
      · rw [Nat.add_zero]
        exact Or.inl hf
    | some h =>
      by_cases hh : h = ""
      · refine ⟨0, Nat.zero_le _, ?_, fun p h1 h2 => absurd h2 (by omega),
          Or.inr (Or.inl ?_)⟩
        · simp [scrapeFrom, hf, hh, pagesConcat]
        · rw [Nat.add_zero]
          exact Or.inr (hh ▸ hf)
      · cases hl : extract h page with
        | nil =>
          refine ⟨0, Nat.zero_le _, ?_, fun p h1 h2 => absurd h2 (by omega),
            Or.inr (Or.inr ?_)⟩
          · simp [scrapeFrom, hf, hh, hl, pagesConcat]
          · rw [Nat.add_zero]
            exact ⟨h, hf, hh, hl⟩
        | cons x xs =>
          obtain ⟨k', hk', heq, hok, hterm⟩ := ih (page + 1)
          refine ⟨k' + 1, by omega, ?_, ?_, ?_⟩
          · have hstep : scrapeFrom fetch extract page (fuel + 1) =
                extract h page ++ scrapeFrom fetch extract (page + 1) fuel := by
              simp [scrapeFrom, hf, hh, hl]
            have hconcat : pagesConcat fetch extract page (k' + 1) =
                pageListings fetch extract page ++
                  pagesConcat fetch extract (page + 1) k' := by
              rw [pagesConcat, List.range'_succ, List.flatMap_cons]
              rfl
            have hpl : pageListings fetch extract page = extract h page := by
              simp [pageListings, hf, hh]
            rw [hstep, heq, hconcat, hpl]
          · intro p hp1 hp2
            by_cases hpp : p = page
            · subst hpp
              exact ⟨h, hf, hh, by simp [hl]⟩
            · exact hok p (by omega) (by omega)
          · rcases hterm with h1 | h2
            · left
              omega
            · right
              have hadd : page + (k' + 1) = (page + 1) + k' := by omega
              rw [hadd]
              exact h2

/-- C7: for every task, the pagination loop starts at page 1 and proceeds
sequentially; there is a cut-off page count k ≤ max_pages such that the
returned value is the concatenation, in page order, of the candidates of
pages 1..k, every page up to k fetched successfully with a non-empty
extraction, and the loop stopped either because the maximum page count
(default 50) was reached, or the next fetch failed, or the next extraction
was empty; in all cases the accumulated list is returned, never an
exception. -/
theorem claim_C7_pagination_terminates_with_accumulated :
    ∀ {α : Type} (fetch : ℕ → Option String) (extract : String → ℕ → List α)
      (max_pages : ℕ),
      defaultMaxPages = 50 ∧
      ∃ k, k ≤ max_pages ∧
        scrape_city_property_type fetch extract max_pages =
          pagesConcat fetch extract 1 k ∧
        (∀ p, 1 ≤ p → p ≤ k → pageOk fetch extract p) ∧
        (k = max_pages ∨ fetchFailed fetch (k + 1) ∨
          extractEmpty fetch extract (k + 1)) := by
  intro α fetch extract max_pages
  refine ⟨rfl, ?_⟩
  obtain ⟨k, hk, heq, hok, hterm⟩ := scrapeFrom_spec fetch extract max_pages 1
  refine ⟨k, hk, heq, fun p h1 h2 => hok p h1 (by omega), ?_⟩
  have hadd : 1 + k = k + 1 := by omega
  rw [hadd] at hterm
  exact hterm

/-- Witness for C7 on a concrete two-good-pages-then-failure oracle. -/
theorem claim_C7_pagination_terminates_with_accumulated_witness :
    defaultMaxPages = 50 ∧
    ∃ k, k ≤ 50 ∧
      scrape_city_property_type fetchTwoPages extractPageNum 50 =
        pagesConcat fetchTwoPages extractPageNum 1 k ∧
      (∀ p, 1 ≤ p → p ≤ k → pageOk fetchTwoPages extractPageNum p) ∧
      (k = 50 ∨ fetchFailed fetchTwoPages (k + 1) ∨
        extractEmpty fetchTwoPages extractPageNum (k + 1)) :=
  claim_C7_pagination_terminates_with_accumulated fetchTwoPages extractPageNum 50

/-! ## Search URL construction -/

theorem natDigitsAux_stable : ∀ (n f f' : ℕ), n < f → n < f' →
    natDigitsAux n f = natDigitsAux n f' := by
  intro n
  induction n using Nat.strong_induction_on with
  | _ n ih =>
    intro f f' hf hf'
    match f, f' with
    | fa + 1, fb + 1 =>
      rw [natDigitsAux, natDigitsAux]
      by_cases h : n < 10
      · rw [if_pos h, if_pos h]
      · rw [if_neg h, if_neg h]
        have hlt : n / 10 < n := Nat.div_lt_self (by omega) (by omega)
        rw [ih (n / 10) hlt fa fb (by omega) (by omega)]

theorem natDigits_unfold (n : ℕ) :
    natDigits n = if n < 10 then [Nat.digitChar n]
      else natDigits (n / 10) ++ [Nat.digitChar (n % 10)] := by
  unfold natDigits
  rw [natDigitsAux]
  by_cases h : n < 10
  · rw [if_pos h, if_pos h]
  · rw [if_neg h, if_neg h]
    have hlt : n / 10 < n := Nat.div_lt_self (by omega) (by omega)
    rw [natDigitsAux_stable (n / 10) n (n / 10 + 1) (by omega) (by omega)]

theorem digitChar_isDigit : ∀ m : ℕ, m < 10 → (Nat.digitChar m).isDigit = true := by
  intro m hm
  interval_cases m <;> decide

theorem natDigits_all_digit : ∀ n : ℕ, ∀ c ∈ natDigits n, c.isDigit = true := by
  intro n
  induction n using Nat.strong_induction_on with
  | _ n ih =>
    intro c hc
    rw [natDigits_unfold] at hc
    by_cases h : n < 10
    · rw [if_pos h] at hc
      rcases List.mem_singleton.mp hc with rfl
      exact digitChar_isDigit n h
    · rw [if_neg h] at hc
      rcases List.mem_append.mp hc with h1 | h2
      · exact ih (n / 10) (Nat.div_lt_self (by omega) (by omega)) c h1
      · rcases List.mem_singleton.mp h2 with rfl
        exact digitChar_isDigit _ (Nat.mod_lt _ (by omega))

theorem natDigits_ne_nil (n : ℕ) : natDigits n ≠ [] := by
  rw [natDigits_unfold]
  by_cases h : n < 10
  · rw [if_pos h]
    simp
  · rw [if_neg h]
    simp

theorem digitChar_inj_lt : ∀ a b : ℕ, a < 10 → b < 10 →
    Nat.digitChar a = Nat.digitChar b → a = b := by
  intro a b ha hb
  interval_cases a <;> interval_cases b <;> decide

theorem natDigits_inj : ∀ n m : ℕ, natDigits n = natDigits m → n = m := by
  intro n
  induction n using Nat.strong_induction_on with
  | _ n ih =>
    intro m h
    rw [natDigits_unfold n, natDigits_unfold m] at h
    by_cases hn : n < 10 <;> by_cases hm : m < 10
    · rw [if_pos hn, if_pos hm] at h
      injection h with h1 _
      exact digitChar_inj_lt n m hn hm h1
    · rw [if_pos hn, if_neg hm] at h
      exfalso
      have hlen := congrArg List.length h
      simp only [List.length_append, List.length_cons, List.length_nil] at hlen
      exact natDigits_ne_nil (m / 10) (List.eq_nil_of_length_eq_zero (by omega))
    · rw [if_neg hn, if_pos hm] at h
      exfalso
      have hlen := congrArg List.length h
      simp only [List.length_append, List.length_cons, List.length_nil] at hlen
      exact natDigits_ne_nil (n / 10) (List.eq_nil_of_length_eq_zero (by omega))
    · rw [if_neg hn, if_neg hm] at h
      rw [← List.concat_eq_append, ← List.concat_eq_append] at h
      obtain ⟨hq, hr⟩ := List.concat_inj.mp h
      have h1 : n / 10 = m / 10 :=
        ih (n / 10) (Nat.div_lt_self (by omega) (by omega)) (m / 10) hq
      have h2 : n % 10 = m % 10 :=
        digitChar_inj_lt _ _ (Nat.mod_lt _ (by omega)) (Nat.mod_lt _ (by omega)) hr
      omega

theorem flatMap_quote_of_digits :
    ∀ l : List Char, (∀ c ∈ l, c.isDigit = true) →
      (l.flatMap (fun c =>
        if quoteSafe c then [c]
        else if c = ' ' then ['+']
        else (utf8Bytes c).flatMap pctByte)) = l := by
  intro l
  induction l with
  | nil => intro _; rfl
  | cons c cs ih =>
    intro h
    have hc : c.isDigit = true := h c (List.mem_cons_self c cs)
    have hsafe : quoteSafe c = true := by simp [quoteSafe, hc]
    rw [List.flatMap_cons, hsafe]
    simp only [if_true]
    rw [ih (fun x hx => h x (List.mem_cons_of_mem c hx))]
    rfl

theorem quote_plus_natStr (n : ℕ) : quote_plus (natStr n) = natStr n := by
  unfold quote_plus natStr
  exact congrArg String.mk (flatMap_quote_of_digits _ (natDigits_all_digit n))

/-- C8 (amended): the search URL is
`BASE_URL/location?location=<quoted city>&property_types=<quoted slug>`, with
the `page` parameter appended iff page > 1; the city value is the
`quote_plus`-encoded RAW city name as given (the scraper never applies
`slugify_city` to it). -/
theorem claim_C8_search_url_format :
    ∀ (city slug : String) (page : ℕ),
      (page ≤ 1 → build_search_url city slug page =
        "https://locamoi.fr/location?location=" ++ quote_plus city ++
          "&property_types=" ++ quote_plus slug) ∧
      (1 < page → build_search_url city slug page =
        "https://locamoi.fr/location?location=" ++ quote_plus city ++
          "&property_types=" ++ quote_plus slug ++ "&page=" ++ natStr page) := by
  intro city slug page
  have hql : quote_plus "location" = "location" := by decide
  have hqp : quote_plus "property_types" = "property_types" := by decide
  have hqg : quote_plus "page" = "page" := by decide
  have d1 : ("https://locamoi.fr/location?location=" : String).data =
      ("https://locamoi.fr" : String).data ++ (("/location?" : String).data ++
        (("location" : String).data ++ ("=" : String).data)) := by decide
  have d2 : ("&property_types=" : String).data =
      ("&" : String).data ++ (("property_types" : String).data ++
        ("=" : String).data) := by decide
  have d3 : ("&page=" : String).data =
      ("&" : String).data ++ (("page" : String).data ++
        ("=" : String).data) := by decide
  constructor
  · intro hp
    have hp' : ¬page > 1 := by omega
    simp only [build_search_url, hp', if_false, List.append_nil, urlencode,
      hql, hqp]
    apply String.ext
    simp only [BASE_URL, String.data_append, List.append_assoc, d1, d2,
      List.cons_append, List.nil_append]
  · intro hp
    simp only [build_search_url, hp, if_true, List.cons_append, List.nil_append,
      urlencode, hql, hqp, hqg, quote_plus_natStr]
    apply String.ext
    simp only [BASE_URL, String.data_append, List.append_assoc, d1, d2, d3,
      List.cons_append, List.nil_append]

/-- Witness for C8 (amended) at city "Le Mans", slug "house", page 2. -/
theorem claim_C8_search_url_format_witness :
    build_search_url "Le Mans" "house" 2 =
      "https://locamoi.fr/location?location=" ++ quote_plus "Le Mans" ++
        "&property_types=" ++ quote_plus "house" ++ "&page=" ++ natStr 2 :=
  (claim_C8_search_url_format "Le Mans" "house" 2).2 (by decide)

/-- C8 counterexample: for the gazetteer city "Le Mans" the URL produced by
the scraper carries the raw city name (`Le+Mans` after form-encoding), not
the accent-stripped lowercased hyphenated slug `le-mans` that `slugify_city`
would give, so the claim that the city value placed in the URL is the city's
URL-safe slug is false. -/
theorem claim_C8_city_not_slugified :
    build_search_url "Le Mans" "house" 1 =
      "https://locamoi.fr/location?location=Le+Mans&property_types=house" ∧
    slugify_city "Le Mans" = "le-mans" ∧
    build_search_url "Le Mans" "house" 1 ≠
      "https://locamoi.fr/location?location=le-mans&property_types=house" := by
  refine ⟨by decide, by decide, by decide⟩

/-! ## Listing-id structure -/

theorem count_underscore_of_digits {l : List Char}
    (h : ∀ c ∈ l, c.isDigit = true) : l.count '_' = 0 := by
  rw [List.count_eq_zero]
  intro hm
  exact absurd (h '_' hm) (by decide)

theorem count_underscore_mid (d e : List Char)
    (hd : ∀ c ∈ d, c.isDigit = true) (he : ∀ c ∈ e, c.isDigit = true) :
    List.count '_' (d ++ '_' :: e) = 1 := by
  rw [List.count_append, List.count_cons, count_underscore_of_digits hd,
    count_underscore_of_digits he]
  decide

theorem digits_split {d1 e1 : List Char} :
    ∀ {d2 e2 : List Char}, (∀ c ∈ d1, c.isDigit = true) →
      (∀ c ∈ d2, c.isDigit = true) →
      d1 ++ '_' :: e1 = d2 ++ '_' :: e2 → d1 = d2 ∧ e1 = e2 := by
  induction d1 with
  | nil =>
    intro d2 e2 _ hd2 h
    cases d2 with
    | nil => simpa using h
    | cons b bs =>
      rw [List.nil_append, List.cons_append] at h
      injection h with h1 _
      exact absurd (hd2 b (List.mem_cons_self b bs)) (h1 ▸ by decide)
  | cons a as ih =>
    intro d2 e2 hd1 hd2 h
    cases d2 with
    | nil =>
      rw [List.cons_append, List.nil_append] at h
      injection h with h1 _
      exact absurd (hd1 a (List.mem_cons_self a as)) (h1 ▸ by decide)
    | cons b bs =>
      rw [List.cons_append, List.cons_append] at h
      injection h with h1 h2
      obtain ⟨hh1, hh2⟩ := ih (fun c hc => hd1 c (List.mem_cons_of_mem a hc))
        (fun c hc => hd2 c (List.mem_cons_of_mem b hc)) h2
      exact ⟨by rw [h1, hh1], hh2⟩

theorem id_parts_split : ∀ (P1 : List Char) {P2 d1 d2 e1 e2 : List Char},
    (∀ c ∈ d1, c.isDigit = true) → (∀ c ∈ d2, c.isDigit = true) →
    (∀ c ∈ e1, c.isDigit = true) → (∀ c ∈ e2, c.isDigit = true) →
    P1 ++ '_' :: 'p' :: (d1 ++ '_' :: e1) = P2 ++ '_' :: 'p' :: (d2 ++ '_' :: e2) →
    P1 = P2 ∧ d1 = d2 ∧ e1 = e2 := by
  intro P1
  induction P1 with
  | nil =>
    intro P2 d1 d2 e1 e2 hd1 hd2 he1 he2 h
    cases P2 with
    | nil =>
      rw [List.nil_append, List.nil_append] at h
      injection h with _ h2
      injection h2 with _ h4
      obtain ⟨hd, he⟩ := digits_split hd1 hd2 h4
      exact ⟨rfl, hd, he⟩
    | cons c P2' =>
      exfalso
      rw [List.nil_append, List.cons_append] at h
      injection h with _ h2
      have hcnt := congrArg (List.count '_') h2
      have hpb : (('p' : Char) == '_') = false := by decide
      have hub : (('_' : Char) == '_') = true := by decide
      simp [List.count_append, List.count_cons, hpb, hub,
        count_underscore_of_digits hd1, count_underscore_of_digits he1,
        count_underscore_of_digits hd2, count_underscore_of_digits he2] at hcnt
  | cons a P1' ih =>
    intro P2 d1 d2 e1 e2 hd1 hd2 he1 he2 h
    cases P2 with
    | nil =>
      exfalso
      rw [List.cons_append, List.nil_append] at h
      injection h with _ h2
      have hcnt := congrArg (List.count '_') h2
      have hpb : (('p' : Char) == '_') = false := by decide
      have hub : (('_' : Char) == '_') = true := by decide
      simp [List.count_append, List.count_cons, hpb, hub,
        count_underscore_of_digits hd1, count_underscore_of_digits he1,
        count_underscore_of_digits hd2, count_underscore_of_digits he2] at hcnt
    | cons b P2' =>
      rw [List.cons_append, List.cons_append] at h
      injection h with h1 h2
      obtain ⟨hP, hd, he⟩ := ih hd1 hd2 he1 he2 h2
      exact ⟨by rw [h1, hP], hd, he⟩

theorem mkListingId_data (t c : String) (p i : ℕ) :
    (mkListingId t c p i).data =
      (t.data ++ '_' :: (normCityForId c).data) ++
        ('_' :: 'p' :: (natDigits p ++ '_' :: natDigits i)) := by
  simp [mkListingId, String.data_append, natStr, List.append_assoc]

/-- C9 (amended): a generated listing id determines the combined string
`property_type_key ++ "_" ++ normalized-city`, the page number and the
per-extraction counter value; hence two accepted matches receive the same id
ONLY when those three coincide, and ids are unique provided distinct
(property_type, city) pairs give distinct combined strings — a strictly
stronger proviso than the claim's "distinct city names stay distinct after
normalization", which the counterexample shows insufficient. -/
theorem claim_C9_listing_id_injective_upto_prefix :
    ∀ (t1 c1 : String) (p1 i1 : ℕ) (t2 c2 : String) (p2 i2 : ℕ),
      mkListingId t1 c1 p1 i1 = mkListingId t2 c2 p2 i2 →
      (t1 ++ "_" ++ normCityForId c1 = t2 ++ "_" ++ normCityForId c2 ∧
        p1 = p2 ∧ i1 = i2) := by
  intro t1 c1 p1 i1 t2 c2 p2 i2 h
  have hd := congrArg String.data h
  rw [mkListingId_data, mkListingId_data] at hd
  obtain ⟨hP, hdp, hdi⟩ := id_parts_split (t1.data ++ '_' :: (normCityForId c1).data)
    (natDigits_all_digit p1) (natDigits_all_digit p2)
    (natDigits_all_digit i1) (natDigits_all_digit i2) hd
  refine ⟨?_, natDigits_inj _ _ hdp, natDigits_inj _ _ hdi⟩
  apply String.ext
  simpa [String.data_append, List.append_assoc] using hP

/-- Witness for C9 (amended): two identical id inputs. -/
theorem claim_C9_listing_id_injective_upto_prefix_witness :
    "maison" ++ "_" ++ normCityForId "Lyon" = "maison" ++ "_" ++ normCityForId "Lyon" ∧
      (2 : ℕ) = 2 ∧ (3 : ℕ) = 3 :=
  claim_C9_listing_id_injective_upto_prefix "maison" "Lyon" 2 3 "maison" "Lyon" 2 3 rfl

/-- C9 counterexample: the tasks (appartement_etudiant, "Paris") and
(appartement, "Etudiant Paris") are distinct, the two city names stay
distinct after lowercasing and space-to-underscore replacement — the claim's
proviso holds — and yet the generated ids for page 1, counter 1 coincide
(both are `appartement_etudiant_paris_p1_1`), so ids are NOT unique under the
claim's proviso alone. -/
theorem claim_C9_id_collision_counterexample :
    mkListingId "appartement_etudiant" "Paris" 1 1 =
      mkListingId "appartement" "Etudiant Paris" 1 1 ∧
    ("appartement_etudiant", "Paris") ≠ ("appartement", "Etudiant Paris") ∧
    normCityForId "Paris" ≠ normCityForId "Etudiant Paris" := by
  refine ⟨by decide, by decide, by decide⟩

end Locamoi
